import Mathlib

/-!
Verification of the proto version-detection engine and checksum verifier.

Shallow embedding of:
- `crates/core/src/version_detector.rs` (version resolution engine)
- `crates/schema-plugin/src/verify.rs`  (checksum verification)

Filesystem paths are modelled as lists of components; the process
environment as a read-only function `String → Option String` plus an
explicit, returned log of the `PROTO_DETECTED_FROM` writes performed by
`set_detected_env_var`; the tool-specific ecosystem probe
(`tool.detect_version_from`) and the version-spec parser
(`UnresolvedVersionSpec::parse`, external crates) as function parameters.
A reachable `.unwrap()` panic is modelled by the `panicked` outcome.
-/

namespace Proto

/-- A filesystem path, as its list of components. The empty list stands for a
path without a parent directory (`Path::parent` returning `None` in Rust). -/
abbrev Path := List String

/-- `Path::parent`: `None` when the path has no parent component. -/
def parentDir : Path → Option Path
  | [] => none
  | p => some p.dropLast

/-- An unresolved version specification (external `version_spec` crate);
kept abstract as its source string form. -/
abbrev UnresolvedVersionSpec := String

/-- The diagnostic carried by a failed `UnresolvedVersionSpec::parse`. -/
abbrev ParseDiag := String

/-- The error cases of `ProtoError` exercised by these two files. -/
inductive ProtoError where
  | Semver (version : String) (error : ParseDiag)
  | VersionDetectFailed (tool : String)
  | VerifyInvalidChecksum (download_file : Path) (checksum_file : Path)
deriving DecidableEq, Repr

/-- Result of running a fallible Rust function that may also panic
(via a reachable `.unwrap()`). -/
inductive RunOutcome (α : Type) where
  | panicked : RunOutcome α
  | error : ProtoError → RunOutcome α
  | ok : α → RunOutcome α
deriving DecidableEq, Repr

/-- The parsed configuration of one `.prototools` file: optionally a map
from tool id to a pinned version (`ProtoConfig.versions`). -/
structure ProtoConfig where
  versions : Option (List (String × UnresolvedVersionSpec))
deriving DecidableEq, Repr

/-- One loaded config file: its path and parsed contents. -/
structure ConfigFile where
  path : Path
  config : ProtoConfig
deriving DecidableEq, Repr

/-- `ProtoConfigManager`: the ordered (nearest-first) sequence of loaded
config files. -/
structure ProtoConfigManager where
  files : List ConfigFile
deriving DecidableEq, Repr

/-- The slice of `Tool` that the detector reads: its id, the base of its
override environment variable (`get_env_var_prefix()`), and its display
name (`get_name()`). -/
structure Tool where
  id : String
  env_var_base : String
  name : String
deriving DecidableEq, Repr

/-- The ecosystem probe `tool.detect_version_from(dir)`: fallible, returning
either nothing or a version together with the file it came from. -/
abbrev Probe := Path → Except ProtoError (Option (UnresolvedVersionSpec × Path))

/-- `BTreeMap::get` on the `versions` map. -/
def lookupVersion : List (String × UnresolvedVersionSpec) → String →
    Option UnresolvedVersionSpec
  | [], _ => none
  | (k, v) :: rest, id => if k = id then some v else lookupVersion rest id

/-- The per-tool entry of one config file: the nested
`file.config.versions` / `versions.get(tool_id)` lookup. -/
def configEntryOf (f : ConfigFile) (tool_id : String) :
    Option UnresolvedVersionSpec :=
  match f.config.versions with
  | some versions => lookupVersion versions tool_id
  | none => none

/-- Loop body of `detect_version_first_available`: at each file, the config
entry is consulted first; otherwise the ecosystem probe runs on the file's
parent directory (`file.path.parent().unwrap()`); the first hit wins. The
second component of the result is the log of `set_detected_env_var` writes. -/
def firstAvailableGo (tool : Tool) (probe : Probe) :
    List ConfigFile → RunOutcome (Option UnresolvedVersionSpec × List Path)
  | [] => .ok (none, [])
  | f :: rest =>
    match configEntryOf f tool.id with
    | some version => .ok (some version, [f.path])
    | none =>
      match parentDir f.path with
      | none => .panicked
      | some dir =>
        match probe dir with
        | .error e => .error e
        | .ok (some (version, src)) => .ok (some version, [src])
        | .ok none => firstAvailableGo tool probe rest

/-- `detect_version_first_available`. -/
def detect_version_first_available (tool : Tool) (probe : Probe)
    (config_manager : ProtoConfigManager) :
    RunOutcome (Option UnresolvedVersionSpec × List Path) :=
  firstAvailableGo tool probe config_manager.files

/-- Loop body of `detect_version_only_prototools`: only the config entries
are consulted; the body is infallible and never probes. -/
def onlyPrototoolsGo (tool : Tool) :
    List ConfigFile → Option UnresolvedVersionSpec × List Path
  | [] => (none, [])
  | f :: rest =>
    match configEntryOf f tool.id with
    | some version => (some version, [f.path])
    | none => onlyPrototoolsGo tool rest

/-- `detect_version_only_prototools`. -/
def detect_version_only_prototools (tool : Tool)
    (config_manager : ProtoConfigManager) :
    Option UnresolvedVersionSpec × List Path :=
  onlyPrototoolsGo tool config_manager.files

/-- Second loop of `detect_version_prefer_prototools`: the ecosystem probe
alone, over each file's parent directory in order. -/
def ecosystemGo (probe : Probe) :
    List ConfigFile → RunOutcome (Option UnresolvedVersionSpec × List Path)
  | [] => .ok (none, [])
  | f :: rest =>
    match parentDir f.path with
    | none => .panicked
    | some dir =>
      match probe dir with
      | .error e => .error e
      | .ok (some (version, src)) => .ok (some version, [src])
      | .ok none => ecosystemGo probe rest

/-- `detect_version_prefer_prototools`: the full config pass first, then the
ecosystem pass over the same hierarchy. -/
def detect_version_prefer_prototools (tool : Tool) (probe : Probe)
    (config_manager : ProtoConfigManager) :
    RunOutcome (Option UnresolvedVersionSpec × List Path) :=
  match detect_version_only_prototools tool config_manager with
  | (some version, writes) => .ok (some version, writes)
  | (none, _) => ecosystemGo probe config_manager.files

/-- `DetectStrategy` from `settings.detect_strategy`. -/
inductive DetectStrategy where
  | FirstAvailable
  | PreferPrototools
  | OnlyPrototools
deriving DecidableEq, Repr

/-- The strategy dispatch inside `detect_version`. -/
def run_detect_strategy (strategy : DetectStrategy) (tool : Tool)
    (probe : Probe) (config_manager : ProtoConfigManager) :
    RunOutcome (Option UnresolvedVersionSpec × List Path) :=
  match strategy with
  | .FirstAvailable => detect_version_first_available tool probe config_manager
  | .PreferPrototools => detect_version_prefer_prototools tool probe config_manager
  | .OnlyPrototools => .ok (detect_version_only_prototools tool config_manager)

/-- Tail of `detect_version` after the override and environment stages:
run the strategy-selected search and turn an empty result into
`ProtoError::VersionDetectFailed`. -/
def detect_from_hierarchy (tool : Tool) (strategy : DetectStrategy)
    (probe : Probe) (config_manager : ProtoConfigManager) :
    RunOutcome (UnresolvedVersionSpec × List Path) :=
  match run_detect_strategy strategy tool probe config_manager with
  | .panicked => .panicked
  | .error e => .error e
  | .ok (some version, writes) => .ok (version, writes)
  | .ok (none, _) => .error (.VersionDetectFailed tool.name)

/-- `detect_version`. `forced_version` is the explicit override; `parse` is
`UnresolvedVersionSpec::parse` (external crate); `env` is the process
environment read by `env::var` (`none` for absent or non-unicode values);
the strategy and config manager stand for what `load_config` /
`load_config_manager` return. The second component of a successful result
is the log of `PROTO_DETECTED_FROM` writes. -/
def detect_version (tool : Tool) (forced_version : Option UnresolvedVersionSpec)
    (parse : String → Except ParseDiag UnresolvedVersionSpec)
    (env : String → Option String) (strategy : DetectStrategy)
    (probe : Probe) (config_manager : ProtoConfigManager) :
    RunOutcome (UnresolvedVersionSpec × List Path) :=
  match forced_version with
  | some candidate => .ok (candidate, [])
  | none =>
    match env (tool.env_var_base ++ "_VERSION") with
    | some session_version =>
      if session_version = "" then
        detect_from_hierarchy tool strategy probe config_manager
      else
        match parse session_version with
        | .ok version => .ok (version, [])
        | .error e => .error (.Semver session_version e)
    | none => detect_from_hierarchy tool strategy probe config_manager

/-- The first per-tool config entry across the hierarchy, with the path of
the file holding it. -/
def firstConfigEntry (tool_id : String) :
    List ConfigFile → Option (UnresolvedVersionSpec × Path)
  | [] => none
  | f :: rest =>
    match configEntryOf f tool_id with
    | some version => some (version, f.path)
    | none => firstConfigEntry tool_id rest

/-! ### Checksum verifier (`crates/schema-plugin/src/verify.rs`)

Rust's `str::starts_with`, `str::ends_with` and `str::replace` are modelled
by executable functions over the underlying character lists. -/

/-- `str::starts_with`. -/
def strStartsWith (s pat : String) : Bool := pat.data.isPrefixOf s.data

/-- `str::ends_with`. -/
def strEndsWith (s pat : String) : Bool := pat.data.isSuffixOf s.data

/-- Fuelled worker for `str::replace`: replaces every non-overlapping
occurrence of a nonempty pattern, left to right. Fuel bounds the recursion;
`strReplace` supplies the input length, which is always enough. -/
def replaceChars (pat rep : List Char) : Nat → List Char → List Char
  | _, [] => []
  | 0, s => s
  | fuel + 1, c :: rest =>
    if pat.isPrefixOf (c :: rest) ∧ pat ≠ []
    then rep ++ replaceChars pat rep fuel ((c :: rest).drop pat.length)
    else c :: replaceChars pat rep fuel rest

/-- `str::replace` (for the nonempty patterns used here). -/
def strReplace (s pat rep : String) : String :=
  ⟨replaceChars pat.data rep.data s.data.length s.data⟩

/-- `starbase_utils::fs::file_name`: the base name of a path, or the empty
string when it has none. -/
def fileName (p : Path) : String := p.getLast?.getD ""

/-- `get_checksum_url`: when a checksum URL template is configured, apply
the plugin's token interpolation to it and then substitute the literal
`{checksum_file}` token with the expected checksum file name. The plugin's
`interpolate_tokens` and the configured template/file name (external to the
verifier) are parameters. -/
def get_checksum_url (interpolate_tokens : String → String)
    (checksum_url : Option String) (checksum_file : String) : Option String :=
  match checksum_url with
  | some url =>
    some (strReplace (interpolate_tokens url) "{checksum_file}" checksum_file)
  | none => none

/-- Formalisation of claim C8's stated order, for comparison with
`get_checksum_url`: the `{checksum_file}` substitution performed on the
template BEFORE any other token interpolation. -/
def get_checksum_url_claim_order (interpolate_tokens : String → String)
    (checksum_url : Option String) (checksum_file : String) : Option String :=
  match checksum_url with
  | some url =>
    some (interpolate_tokens (strReplace url "{checksum_file}" checksum_file))
  | none => none

/-- The per-line acceptance test of `verify_checksum`: either
`<checksum>  <file>` (any separator width) or a bare `<checksum>`. -/
def checksumLineMatches (checksum file_name line : String) : Bool :=
  (strStartsWith line checksum && strEndsWith line file_name) || line == checksum

/-- The source `version` came, with provenance path `p`, from one of the
hierarchy's sources: a config file's own entry, or an ecosystem-probe hit
on the parent directory of one of the hierarchy's files. -/
def suppliedBy (tool : Tool) (probe : Probe) (fs : List ConfigFile)
    (version : UnresolvedVersionSpec) (p : Path) : Prop :=
  (∃ f ∈ fs, f.path = p ∧ configEntryOf f tool.id = some version) ∨
  (∃ f ∈ fs, ∃ dir, parentDir f.path = some dir ∧
    probe dir = .ok (some (version, p)))

/-- The `BufReader::lines().flatten()` scan of `verify_checksum`: first
matching line returns `true`; an exhausted manifest is
`ProtoError::VerifyInvalidChecksum` with both paths. -/
def scanChecksumLines (checksum file_name : String)
    (download_file checksum_file : Path) :
    List String → Except ProtoError Bool
  | [] => .error (.VerifyInvalidChecksum download_file checksum_file)
  | line :: rest =>
    if checksumLineMatches checksum file_name line then .ok true
    else scanChecksumLines checksum file_name download_file checksum_file rest

/-- `verify_checksum`. `checksum` is the SHA-256 hex digest of the
downloaded file computed by `get_sha256_hash_of_file`; the opened manifest
is its list of lines, `none` marking a line that failed to decode as text
(an `Err` skipped by `.flatten()`). -/
def verify_checksum (checksum_file download_file : Path) (checksum : String)
    (manifest : List (Option String)) : Except ProtoError Bool :=
  scanChecksumLines checksum (fileName download_file)
    download_file checksum_file (manifest.filterMap id)

/-! ### Helper lemmas -/

theorem parentDir_eq_none_iff (p : Path) : parentDir p = none ↔ p = [] := by
  cases p <;> simp [parentDir]

/-- No tool's override variable `<prefix>_VERSION` is the provenance
marker variable `PROTO_DETECTED_FROM`. -/
theorem version_var_ne_marker (s : String) :
    s ++ "_VERSION" ≠ "PROTO_DETECTED_FROM" := by
  intro h
  have hd : s.data ++ "_VERSION".data = "PROTO_DETECTED_FROM".data := by
    simpa [String.data_append] using congrArg String.data h
  have h1 : (s.data ++ "_VERSION".data).getLast? = some 'N' := by
    rw [List.getLast?_append_of_ne_nil _ (by decide)]; decide
  rw [hd] at h1
  exact absurd h1 (by decide)

/-- The config-only pass returns exactly the first config entry of the
hierarchy, writing that file's path as provenance. -/
theorem onlyPrototoolsGo_eq_firstConfigEntry (tool : Tool)
    (fs : List ConfigFile) :
    onlyPrototoolsGo tool fs =
      match firstConfigEntry tool.id fs with
      | some (version, p) => (some version, [p])
      | none => (none, []) := by
  induction fs with
  | nil => rfl
  | cons f rest ih =>
    unfold onlyPrototoolsGo firstConfigEntry
    cases configEntryOf f tool.id <;> simp [ih]

theorem firstAvailableGo_no_panic (tool : Tool) (probe : Probe)
    (fs : List ConfigFile) (h : ∀ f ∈ fs, parentDir f.path ≠ none) :
    firstAvailableGo tool probe fs ≠ RunOutcome.panicked := by
  induction fs with
  | nil => simp [firstAvailableGo]
  | cons f rest ih =>
    have hf := h f (List.mem_cons_self f rest)
    unfold firstAvailableGo
    cases hce : configEntryOf f tool.id with
    | some version => simp
    | none =>
      cases hp : parentDir f.path with
      | none => exact absurd hp hf
      | some dir =>
        cases hpr : probe dir with
        | error e => simp [hpr]
        | ok r =>
          cases r with
          | none =>
            simpa [hpr] using ih fun g hg => h g (List.mem_cons_of_mem f hg)
          | some vp => cases vp; simp [hpr]

theorem ecosystemGo_no_panic (probe : Probe) (fs : List ConfigFile)
    (h : ∀ f ∈ fs, parentDir f.path ≠ none) :
    ecosystemGo probe fs ≠ RunOutcome.panicked := by
  induction fs with
  | nil => simp [ecosystemGo]
  | cons f rest ih =>
    have hf := h f (List.mem_cons_self f rest)
    unfold ecosystemGo
    cases hp : parentDir f.path with
    | none => exact absurd hp hf
    | some dir =>
      cases hpr : probe dir with
      | error e => simp [hpr]
      | ok r =>
        cases r with
        | none =>
          simpa [hpr] using ih fun g hg => h g (List.mem_cons_of_mem f hg)
        | some vp => cases vp; simp [hpr]

theorem scanChecksumLines_ok_true_iff (c fn : String) (df cf : Path)
    (ls : List String) :
    scanChecksumLines c fn df cf ls = .ok true ↔
      ∃ l ∈ ls, checksumLineMatches c fn l = true := by
  induction ls with
  | nil => simp [scanChecksumLines]
  | cons l rest ih =>
    unfold scanChecksumLines
    by_cases h : checksumLineMatches c fn l = true
    · simp [h]
    · simp [h, ih]

theorem scanChecksumLines_ne_ok_false (c fn : String) (df cf : Path)
    (ls : List String) :
    scanChecksumLines c fn df cf ls ≠ .ok false := by
  induction ls with
  | nil => simp [scanChecksumLines]
  | cons l rest ih =>
    unfold scanChecksumLines
    by_cases h : checksumLineMatches c fn l = true
    · simp [h]
    · simp [h, ih]

theorem scanChecksumLines_no_match (c fn : String) (df cf : Path)
    (ls : List String) (h : ∀ l ∈ ls, checksumLineMatches c fn l = false) :
    scanChecksumLines c fn df cf ls = .error (.VerifyInvalidChecksum df cf) := by
  induction ls with
  | nil => rfl
  | cons l rest ih =>
    have hl := h l (List.mem_cons_self l rest)
    unfold scanChecksumLines
    simp only [hl]
    exact ih fun g hg => h g (List.mem_cons_of_mem l hg)

theorem checksumLineMatches_iff (c fn l : String) :
    checksumLineMatches c fn l = true ↔
      (strStartsWith l c = true ∧ strEndsWith l fn = true) ∨ l = c := by
  simp [checksumLineMatches, Bool.or_eq_true, Bool.and_eq_true, beq_iff_eq]

theorem onlyPrototoolsGo_some (tool : Tool) (fs : List ConfigFile)
    (version : UnresolvedVersionSpec) (w : List Path)
    (h : onlyPrototoolsGo tool fs = (some version, w)) :
    ∃ p, w = [p] ∧ ∃ f ∈ fs, f.path = p ∧
      configEntryOf f tool.id = some version := by
  induction fs with
  | nil => simp [onlyPrototoolsGo] at h
  | cons f rest ih =>
    rw [onlyPrototoolsGo] at h
    split at h
    · next v hce =>
      simp only [Prod.mk.injEq, Option.some.injEq] at h
      obtain ⟨rfl, rfl⟩ := h
      exact ⟨f.path, rfl, f, List.mem_cons_self f rest, rfl, hce⟩
    · obtain ⟨p, hw, g, hg, hp, hcg⟩ := ih h
      exact ⟨p, hw, g, List.mem_cons_of_mem f hg, hp, hcg⟩

theorem firstAvailableGo_ok_some (tool : Tool) (probe : Probe)
    (fs : List ConfigFile) (version : UnresolvedVersionSpec) (w : List Path)
    (h : firstAvailableGo tool probe fs = .ok (some version, w)) :
    ∃ p, w = [p] ∧ suppliedBy tool probe fs version p := by
  induction fs with
  | nil => simp [firstAvailableGo] at h
  | cons f rest ih =>
    rw [firstAvailableGo] at h
    split at h
    · next v hce =>
      simp only [RunOutcome.ok.injEq, Prod.mk.injEq, Option.some.injEq] at h
      obtain ⟨rfl, rfl⟩ := h
      exact ⟨f.path, rfl, Or.inl ⟨f, List.mem_cons_self f rest, rfl, hce⟩⟩
    · next hce =>
      split at h
      · exact absurd h (by simp)
      · next dir hp =>
        split at h
        · exact absurd h (by simp)
        · next v src hpr =>
          simp only [RunOutcome.ok.injEq, Prod.mk.injEq, Option.some.injEq] at h
          obtain ⟨rfl, rfl⟩ := h
          exact ⟨src, rfl, Or.inr ⟨f, List.mem_cons_self f rest, dir, hp, hpr⟩⟩
        · obtain ⟨p, hw, hsup⟩ := ih h
          refine ⟨p, hw, ?_⟩
          rcases hsup with ⟨g, hg, hgp, hcg⟩ | ⟨g, hg, d, hd, hpd⟩
          · exact Or.inl ⟨g, List.mem_cons_of_mem f hg, hgp, hcg⟩
          · exact Or.inr ⟨g, List.mem_cons_of_mem f hg, d, hd, hpd⟩

theorem ecosystemGo_ok_some (probe : Probe) (fs : List ConfigFile)
    (version : UnresolvedVersionSpec) (w : List Path)
    (h : ecosystemGo probe fs = .ok (some version, w)) :
    ∃ p, w = [p] ∧ ∃ f ∈ fs, ∃ dir, parentDir f.path = some dir ∧
      probe dir = .ok (some (version, p)) := by
  induction fs with
  | nil => simp [ecosystemGo] at h
  | cons f rest ih =>
    rw [ecosystemGo] at h
    split at h
    · exact absurd h (by simp)
    · next dir hp =>
      split at h
      · exact absurd h (by simp)
      · next v src hpr =>
        simp only [RunOutcome.ok.injEq, Prod.mk.injEq, Option.some.injEq] at h
        obtain ⟨rfl, rfl⟩ := h
        exact ⟨src, rfl, f, List.mem_cons_self f rest, dir, hp, hpr⟩
      · obtain ⟨p, hw, g, hg, d, hd, hpd⟩ := ih h
        exact ⟨p, hw, g, List.mem_cons_of_mem f hg, d, hd, hpd⟩

theorem run_detect_strategy_ok_some (strategy : DetectStrategy) (tool : Tool)
    (probe : Probe) (cm : ProtoConfigManager)
    (version : UnresolvedVersionSpec) (w : List Path)
    (h : run_detect_strategy strategy tool probe cm = .ok (some version, w)) :
    ∃ p, w = [p] ∧ suppliedBy tool probe cm.files version p := by
  cases strategy with
  | FirstAvailable => exact firstAvailableGo_ok_some tool probe cm.files version w h
  | OnlyPrototools =>
    have h' := RunOutcome.ok.inj h
    obtain ⟨p, hw, g, hg, hp, hcg⟩ :=
      onlyPrototoolsGo_some tool cm.files version w h'
    exact ⟨p, hw, Or.inl ⟨g, hg, hp, hcg⟩⟩
  | PreferPrototools =>
    rw [run_detect_strategy, detect_version_prefer_prototools] at h
    split at h
    · next v writes hop =>
      simp only [RunOutcome.ok.injEq, Prod.mk.injEq, Option.some.injEq] at h
      obtain ⟨rfl, rfl⟩ := h
      obtain ⟨p, hw, g, hg, hp, hcg⟩ :=
        onlyPrototoolsGo_some tool cm.files _ _ hop
      exact ⟨p, hw, Or.inl ⟨g, hg, hp, hcg⟩⟩
    · obtain ⟨p, hw, g, hg, d, hd, hpd⟩ :=
        ecosystemGo_ok_some probe cm.files _ _ h
      exact ⟨p, hw, Or.inr ⟨g, hg, d, hd, hpd⟩⟩

/-! ### Claim theorems -/

/-- Claim C1: for every tool, strategy, environment, config hierarchy and
ecosystem probe, an explicit override version is returned unconditionally
by `detect_version` — no parsing, no environment lookup, no config or
ecosystem consultation (the result does not depend on `parse`, `env`,
`strategy`, `probe` or `config_manager`, and no provenance write occurs). -/
theorem detect_version_explicit_override_wins (tool : Tool)
    (v : UnresolvedVersionSpec)
    (parse : String → Except ParseDiag UnresolvedVersionSpec)
    (env : String → Option String) (strategy : DetectStrategy)
    (probe : Probe) (cm : ProtoConfigManager) :
    detect_version tool (some v) parse env strategy probe cm = .ok (v, []) :=
  rfl

/-- Claim C2: with no override and a non-empty value in
`<TOOL_ENV_PREFIX>_VERSION`, `detect_version` returns exactly the parse of
that value — a parse failure is `ProtoError::Semver` carrying the literal
environment string and the parser diagnostic — and the result never
depends on the config hierarchy, the strategy or the ecosystem probe. -/
theorem detect_version_env_var_priority (tool : Tool)
    (parse : String → Except ParseDiag UnresolvedVersionSpec)
    (env : String → Option String) (strategy : DetectStrategy)
    (probe : Probe) (cm : ProtoConfigManager) (s : String)
    (hs : env (tool.env_var_base ++ "_VERSION") = some s) (hne : s ≠ "") :
    detect_version tool none parse env strategy probe cm =
      (match parse s with
       | .ok version => .ok (version, [])
       | .error e => .error (.Semver s e)) := by
  unfold detect_version
  rw [hs]
  simp [hne]

/-- Witness for claim C2: the spec's example — environment value
`"not-a-version!!"` with a failing parser yields the parse error wrapping
the literal string, even though a config entry for the tool exists. -/
theorem detect_version_env_var_priority_witness :
    detect_version ⟨"node", "PROTO_NODE", "node"⟩ none
      (fun _ => .error "invalid version syntax")
      (fun k => if k = "PROTO_NODE_VERSION" then some "not-a-version!!" else none)
      .FirstAvailable (fun _ => .ok none)
      ⟨[⟨["home", ".prototools"], ⟨some [("node", "20.0.0")]⟩⟩]⟩ =
      .error (.Semver "not-a-version!!" "invalid version syntax") :=
  detect_version_env_var_priority ⟨"node", "PROTO_NODE", "node"⟩
    (fun _ => .error "invalid version syntax")
    (fun k => if k = "PROTO_NODE_VERSION" then some "not-a-version!!" else none)
    .FirstAvailable (fun _ => .ok none)
    ⟨[⟨["home", ".prototools"], ⟨some [("node", "20.0.0")]⟩⟩]⟩
    "not-a-version!!" (by decide) (by decide)

/-- Claim C6: under the only-prototools strategy the ecosystem probe is
never invoked — `detect_version` produces identical results for any two
probe implementations, and the hierarchy stage is exactly the pure
config-entry scan, even when no config entry exists. -/
theorem detect_version_only_prototools_probe_free (tool : Tool)
    (forced_version : Option UnresolvedVersionSpec)
    (parse : String → Except ParseDiag UnresolvedVersionSpec)
    (env : String → Option String) (probe probe' : Probe)
    (cm : ProtoConfigManager) :
    detect_version tool forced_version parse env .OnlyPrototools probe cm =
      detect_version tool forced_version parse env .OnlyPrototools probe' cm ∧
    run_detect_strategy .OnlyPrototools tool probe cm =
      .ok (detect_version_only_prototools tool cm) :=
  ⟨rfl, rfl⟩

/-- Claim C7: with no override, the environment variable unset or empty,
and a hierarchy search that yields nothing, `detect_version` fails with
`ProtoError::VersionDetectFailed` carrying the tool's name. -/
theorem detect_version_detection_failed (tool : Tool)
    (parse : String → Except ParseDiag UnresolvedVersionSpec)
    (env : String → Option String) (strategy : DetectStrategy)
    (probe : Probe) (cm : ProtoConfigManager) (w : List Path)
    (henv : env (tool.env_var_base ++ "_VERSION") = none ∨
            env (tool.env_var_base ++ "_VERSION") = some "")
    (hsearch : run_detect_strategy strategy tool probe cm = .ok (none, w)) :
    detect_version tool none parse env strategy probe cm =
      .error (.VersionDetectFailed tool.name) := by
  unfold detect_version detect_from_hierarchy
  rcases henv with h | h <;> simp [h, hsearch]

/-- Witness for claim C7: tool named `"node"`, empty hierarchy, no
environment variable — the error mentions `node`. -/
theorem detect_version_detection_failed_witness :
    detect_version ⟨"node", "PROTO_NODE", "node"⟩ none (fun s => .ok s)
      (fun _ => none) .FirstAvailable (fun _ => .ok none) ⟨[]⟩ =
      .error (.VersionDetectFailed "node") :=
  detect_version_detection_failed ⟨"node", "PROTO_NODE", "node"⟩ (fun s => .ok s)
    (fun _ => none) .FirstAvailable (fun _ => .ok none) ⟨[]⟩ []
    (Or.inl rfl) rfl

/-- Claim C4: under prefer-prototools, the config entries of the whole
hierarchy are checked before any ecosystem probing: if any source holds a
config entry for the tool, the first such entry is the result for every
probe implementation (so a config entry in a farther directory beats an
ecosystem file in a nearer one); only when no source holds an entry does a
second pass run the probe over each source's directory in the same order. -/
theorem prefer_prototools_full_config_pass_first (tool : Tool)
    (probe probe' : Probe) (cm : ProtoConfigManager) :
    (∀ version p, firstConfigEntry tool.id cm.files = some (version, p) →
      detect_version_prefer_prototools tool probe cm = .ok (some version, [p]) ∧
      detect_version_prefer_prototools tool probe' cm =
        detect_version_prefer_prototools tool probe cm) ∧
    (firstConfigEntry tool.id cm.files = none →
      detect_version_prefer_prototools tool probe cm =
        ecosystemGo probe cm.files) := by
  unfold detect_version_prefer_prototools detect_version_only_prototools
  simp only [onlyPrototoolsGo_eq_firstConfigEntry]
  constructor
  · intro version p hfc
    rw [hfc]
    simp
  · intro hfc
    rw [hfc]

/-- Witness for claim C4: the nearer source holds only an ecosystem file
(probe hit), the farther one a config entry; under prefer-prototools the
farther config entry wins. -/
theorem prefer_prototools_full_config_pass_first_witness :
    detect_version_prefer_prototools ⟨"node", "PROTO_NODE", "node"⟩
      (fun dir => if dir = ["home", "proj"]
        then .ok (some ("18.0.0", ["home", "proj", ".nvmrc"]))
        else .ok none)
      ⟨[⟨["home", "proj", ".prototools"], ⟨some []⟩⟩,
        ⟨["home", ".prototools"], ⟨some [("node", "20.0.0")]⟩⟩]⟩ =
      .ok (some "20.0.0", [["home", ".prototools"]]) :=
  ((prefer_prototools_full_config_pass_first ⟨"node", "PROTO_NODE", "node"⟩
      (fun dir => if dir = ["home", "proj"]
        then .ok (some ("18.0.0", ["home", "proj", ".nvmrc"]))
        else .ok none)
      (fun _ => .ok none)
      ⟨[⟨["home", "proj", ".prototools"], ⟨some []⟩⟩,
        ⟨["home", ".prototools"], ⟨some [("node", "20.0.0")]⟩⟩]⟩).1
    "20.0.0" ["home", ".prototools"] (by decide)).1

/-- Claim C5: under first-available, each source is settled before the
next is considered — at a source the per-tool config entry wins if
present; otherwise the ecosystem probe runs on that source's directory,
its hit is returned, its miss advances to the next source (and its error
aborts the search). Hence an ecosystem hit at a nearer directory wins over
a config entry in a farther one. -/
theorem first_available_per_source_order (tool : Tool) (probe : Probe)
    (f : ConfigFile) (rest : List ConfigFile) :
    (∀ version, configEntryOf f tool.id = some version →
      detect_version_first_available tool probe ⟨f :: rest⟩ =
        .ok (some version, [f.path])) ∧
    (∀ dir, configEntryOf f tool.id = none → parentDir f.path = some dir →
      (∀ version p, probe dir = .ok (some (version, p)) →
        detect_version_first_available tool probe ⟨f :: rest⟩ =
          .ok (some version, [p])) ∧
      (probe dir = .ok none →
        detect_version_first_available tool probe ⟨f :: rest⟩ =
          detect_version_first_available tool probe ⟨rest⟩) ∧
      (∀ e, probe dir = .error e →
        detect_version_first_available tool probe ⟨f :: rest⟩ = .error e)) := by
  unfold detect_version_first_available
  rw [firstAvailableGo]
  constructor
  · intro version h
    rw [h]
  · intro dir hce hp
    rw [hce, hp]
    refine ⟨?_, ?_, ?_⟩
    · intro version p h
      simp [h]
    · intro h
      simp [h]
    · intro e h
      simp [h]

/-- Witness for claim C5: the nearer source has no config entry but an
ecosystem hit, the farther one a config entry; under first-available the
nearer ecosystem result wins. -/
theorem first_available_per_source_order_witness :
    detect_version_first_available ⟨"node", "PROTO_NODE", "node"⟩
      (fun dir => if dir = ["home", "proj"]
        then .ok (some ("18.0.0", ["home", "proj", ".nvmrc"]))
        else .ok none)
      ⟨[⟨["home", "proj", ".prototools"], ⟨some []⟩⟩,
        ⟨["home", ".prototools"], ⟨some [("node", "20.0.0")]⟩⟩]⟩ =
      .ok (some "18.0.0", [["home", "proj", ".nvmrc"]]) :=
  (((first_available_per_source_order ⟨"node", "PROTO_NODE", "node"⟩
      (fun dir => if dir = ["home", "proj"]
        then .ok (some ("18.0.0", ["home", "proj", ".nvmrc"]))
        else .ok none)
      ⟨["home", "proj", ".prototools"], ⟨some []⟩⟩
      [⟨["home", ".prototools"], ⟨some [("node", "20.0.0")]⟩⟩]).2
    ["home", "proj"] (by decide) (by decide)).1
    "18.0.0" ["home", "proj", ".nvmrc"] (by simp))

/-- Claim C10: the `file.path.parent().unwrap()` of both search functions
never panics when every config file path in the manager has a parent
directory; and a config file whose path has no parent, reached without an
earlier match, makes both functions panic rather than return an error. -/
theorem parent_unwrap_totality (tool : Tool) (probe : Probe)
    (cm : ProtoConfigManager)
    (h : ∀ f ∈ cm.files, parentDir f.path ≠ none) :
    detect_version_first_available tool probe cm ≠ .panicked ∧
    detect_version_prefer_prototools tool probe cm ≠ .panicked ∧
    detect_version_first_available tool probe ⟨[⟨[], ⟨none⟩⟩]⟩ = .panicked ∧
    detect_version_prefer_prototools tool probe ⟨[⟨[], ⟨none⟩⟩]⟩ = .panicked := by
  refine ⟨firstAvailableGo_no_panic tool probe cm.files h, ?_, rfl, rfl⟩
  unfold detect_version_prefer_prototools
  cases hop : detect_version_only_prototools tool cm with
  | mk o writes =>
    cases o with
    | some v => simp
    | none => simpa using ecosystemGo_no_panic probe cm.files h

/-- Witness for claim C10 at a hierarchy whose single config file path has
a parent directory. -/
theorem parent_unwrap_totality_witness :
    detect_version_first_available ⟨"node", "PROTO_NODE", "node"⟩
      (fun _ => .ok none) ⟨[⟨["home", ".prototools"], ⟨none⟩⟩]⟩ ≠ .panicked ∧
    detect_version_prefer_prototools ⟨"node", "PROTO_NODE", "node"⟩
      (fun _ => .ok none) ⟨[⟨["home", ".prototools"], ⟨none⟩⟩]⟩ ≠ .panicked ∧
    detect_version_first_available ⟨"node", "PROTO_NODE", "node"⟩
      (fun _ => .ok none) ⟨[⟨[], ⟨none⟩⟩]⟩ = .panicked ∧
    detect_version_prefer_prototools ⟨"node", "PROTO_NODE", "node"⟩
      (fun _ => .ok none) ⟨[⟨[], ⟨none⟩⟩]⟩ = .panicked :=
  parent_unwrap_totality ⟨"node", "PROTO_NODE", "node"⟩ (fun _ => .ok none)
    ⟨[⟨["home", ".prototools"], ⟨none⟩⟩]⟩ (by decide)

/-- Claim C3: `verify_checksum` returns `true` exactly when some decodable
manifest line either starts with the digest of the downloaded file and
ends with its base name, or equals the digest; undecodable lines are
skipped without aborting the scan; an exhausted manifest is the
`ProtoError::VerifyInvalidChecksum` error carrying both paths, and `false`
is never returned. -/
theorem verify_checksum_spec (checksum_file download_file : Path)
    (checksum : String) (manifest : List (Option String)) :
    (verify_checksum checksum_file download_file checksum manifest = .ok true ↔
      ∃ line ∈ manifest.filterMap id,
        (strStartsWith line checksum = true ∧
          strEndsWith line (fileName download_file) = true) ∨ line = checksum) ∧
    (∀ pre post : List (Option String),
      verify_checksum checksum_file download_file checksum
        (pre ++ none :: post) =
      verify_checksum checksum_file download_file checksum (pre ++ post)) ∧
    ((∀ line ∈ manifest.filterMap id,
        checksumLineMatches checksum (fileName download_file) line = false) →
      verify_checksum checksum_file download_file checksum manifest =
        .error (.VerifyInvalidChecksum download_file checksum_file)) ∧
    verify_checksum checksum_file download_file checksum manifest ≠
      .ok false := by
  refine ⟨?_, ?_, ?_, ?_⟩
  · rw [verify_checksum, scanChecksumLines_ok_true_iff]
    constructor
    · rintro ⟨l, hl, hm⟩
      exact ⟨l, hl, (checksumLineMatches_iff _ _ _).mp hm⟩
    · rintro ⟨l, hl, hm⟩
      exact ⟨l, hl, (checksumLineMatches_iff _ _ _).mpr hm⟩
  · intro pre post
    unfold verify_checksum
    congr 1
    simp [List.filterMap_append]
  · intro h
    exact scanChecksumLines_no_match _ _ _ _ _ h
  · exact scanChecksumLines_ne_ok_false _ _ _ _ _

/-- Witness for claim C3: a manifest holding only the digest `def456`
against a file whose digest is `abc123` fails with the checksum-mismatch
error carrying both paths. -/
theorem verify_checksum_spec_witness :
    verify_checksum ["downloads", "CHECKSUMS.txt"]
      ["downloads", "archive.tar.gz"] "abc123" [some "def456"] =
      .error (.VerifyInvalidChecksum ["downloads", "archive.tar.gz"]
        ["downloads", "CHECKSUMS.txt"]) :=
  (verify_checksum_spec ["downloads", "CHECKSUMS.txt"]
    ["downloads", "archive.tar.gz"] "abc123" [some "def456"]).2.2.1 (by decide)

/-- Counterexample to claim C8 as stated: `get_checksum_url` applies the
plugin's other token interpolation to the template FIRST and substitutes
`{checksum_file}` into its result, not the other way round. With an
interpolation that rewrites `{arch}` to `{checksum_file}`, the code yields
the file name where the claimed order yields the literal token. -/
theorem get_checksum_url_order_counterexample :
    get_checksum_url (fun s => strReplace s "{arch}" "{checksum_file}")
      (some "{arch}") "CHECKSUMS.txt" = some "CHECKSUMS.txt" ∧
    get_checksum_url_claim_order (fun s => strReplace s "{arch}" "{checksum_file}")
      (some "{arch}") "CHECKSUMS.txt" = some "{checksum_file}" ∧
    (some "CHECKSUMS.txt" : Option String) ≠ some "{checksum_file}" :=
  ⟨by decide, by decide, by decide⟩

/-- Claim C8 (amended): for every configured checksum URL template,
`get_checksum_url` substitutes the literal `{checksum_file}` token with
the expected checksum file name AFTER the plugin's token interpolation has
been applied to the template, and returns `none` when no checksum URL is
configured. -/
theorem get_checksum_url_substitutes_after_interpolation
    (interpolate_tokens : String → String) (checksum_url : Option String)
    (checksum_file : String) :
    get_checksum_url interpolate_tokens checksum_url checksum_file =
      checksum_url.map
        (fun url =>
          strReplace (interpolate_tokens url) "{checksum_file}" checksum_file) ∧
    get_checksum_url interpolate_tokens none checksum_file = none := by
  cases checksum_url <;> exact ⟨rfl, rfl⟩

/-- Counterexample to claim C9 as stated: a resolution that succeeds from
the explicit override performs no provenance write at all (empty write
log), even though a config file that would have supplied an answer exists —
so not every successful resolution leaves the marker holding the path of a
supplying file. -/
theorem detect_version_provenance_counterexample :
    detect_version ⟨"node", "PROTO_NODE", "node"⟩ (some "1.2.3")
      (fun s => .ok s) (fun _ => none) .FirstAvailable (fun _ => .ok none)
      ⟨[⟨["home", ".prototools"], ⟨some [("node", "20.0.0")]⟩⟩]⟩ =
      .ok ("1.2.3", ([] : List Path)) ∧
    ∀ p : Path, ([] : List Path) ≠ [p] :=
  ⟨rfl, fun p => List.cons_ne_nil p [] ∘ Eq.symm⟩

/-- Claim C9 (amended): the provenance marker `PROTO_DETECTED_FROM` is
never read back within the call — environments agreeing everywhere except
on that variable give identical results — and whenever the hierarchy
search supplies the version, exactly one marker write occurs and it holds
the path of the source that supplied the answer (the config file's own
path, or the file reported by the ecosystem probe); override- and
environment-variable resolutions perform no write. -/
theorem detect_version_provenance (tool : Tool)
    (forced_version : Option UnresolvedVersionSpec)
    (parse : String → Except ParseDiag UnresolvedVersionSpec)
    (e1 e2 : String → Option String) (strategy : DetectStrategy)
    (probe : Probe) (cm : ProtoConfigManager)
    (h : ∀ k, k ≠ "PROTO_DETECTED_FROM" → e1 k = e2 k) :
    detect_version tool forced_version parse e1 strategy probe cm =
      detect_version tool forced_version parse e2 strategy probe cm ∧
    (∀ version w,
      run_detect_strategy strategy tool probe cm = .ok (some version, w) →
      ∃ p, w = [p] ∧ suppliedBy tool probe cm.files version p) ∧
    (∀ v, detect_version tool (some v) parse e1 strategy probe cm =
      .ok (v, [])) := by
  refine ⟨?_, ?_, fun v => rfl⟩
  · unfold detect_version
    cases forced_version with
    | some c => rfl
    | none =>
      rw [h (tool.env_var_base ++ "_VERSION") (version_var_ne_marker _)]
  · intro version w hw
    exact run_detect_strategy_ok_some strategy tool probe cm version w hw

/-- Witness for claim C9 (amended): two environments differing only in
`PROTO_DETECTED_FROM` produce the same resolution. -/
theorem detect_version_provenance_witness :
    detect_version ⟨"node", "PROTO_NODE", "node"⟩ none (fun s => .ok s)
      (fun k => if k = "PROTO_DETECTED_FROM" then some "stale-path" else none)
      .OnlyPrototools (fun _ => .ok none)
      ⟨[⟨["home", ".prototools"], ⟨some [("node", "20.0.0")]⟩⟩]⟩ =
    detect_version ⟨"node", "PROTO_NODE", "node"⟩ none (fun s => .ok s)
      (fun _ => none) .OnlyPrototools (fun _ => .ok none)
      ⟨[⟨["home", ".prototools"], ⟨some [("node", "20.0.0")]⟩⟩]⟩ :=
  (detect_version_provenance ⟨"node", "PROTO_NODE", "node"⟩ none (fun s => .ok s)
    (fun k => if k = "PROTO_DETECTED_FROM" then some "stale-path" else none)
    (fun _ => none) .OnlyPrototools (fun _ => .ok none)
    ⟨[⟨["home", ".prototools"], ⟨some [("node", "20.0.0")]⟩⟩]⟩
    (fun _ hk => if_neg hk)).1

end Proto
